import Mathlib

set_option maxHeartbeats 1000000

/-!
Verification development for the jboss-monitor repository.

The definitions below are shallow embeddings of the repository's code:
the bulk-import parser of
`src/jboss-monitor-frontend/src/components/hosts/BulkImportForm.js`,
the compare dialog of
`src/jboss-monitor-frontend/src/components/reports/CompareReportsDialog.js`,
the reports page of `src/jboss-monitor-frontend/src/pages/ReportsPage.js`,
the comparison list of
`src/jboss-monitor-frontend/src/components/reports/ComparisonReportsList.js`,
the dashboard statistics of `src/jboss-monitor-frontend/src/pages/MonitorPage.js`
and `src/jboss-monitor-frontend/src/pages/DashboardPage.js`,
the backend configuration file (`src/unnamed/part_000`),
and, where the backend engine itself is not part of the source tree,
models built from the specification (each marked `Modelled from the spec:`).
-/

namespace BulkImport

/-- Value of a list of decimal digit characters, most significant first. -/
def digitsToNat (ds : List Char) : Nat :=
  List.foldl (fun acc c => 10 * acc + (c.toNat - '0'.toNat)) 0 ds

/-- JavaScript `parseInt(s, 10)`: skip leading whitespace, read an optional
sign, then the longest prefix of decimal digits; `none` models `NaN`
(no digits at all).  A non-digit suffix after the digits is ignored. -/
def jsParseInt (s : String) : Option Int :=
  let cs := List.dropWhile Char.isWhitespace s.data
  let signRest : Int × List Char :=
    match cs with
    | '-' :: t => (-1, t)
    | '+' :: t => (1, t)
    | _ => (1, cs)
  let ds := List.takeWhile Char.isDigit signRest.2
  if ds.isEmpty then none
  else some (signRest.1 * (digitsToNat ds : Int))

/-- Characters of a string with leading and trailing whitespace removed
(JavaScript `String.prototype.trim`). -/
def trimChars (cs : List Char) : List Char :=
  ((List.dropWhile Char.isWhitespace cs).reverse.dropWhile Char.isWhitespace).reverse

/-- JavaScript `s.trim()`. -/
def jsTrim (s : String) : String :=
  ⟨trimChars s.data⟩

/-- Split a character list at every character satisfying `p`, keeping empty
segments (the splitting behaviour of `String.prototype.split` with a
single-character separator, and of `/\s+/` before empty segments are
dropped). -/
def splitChars (p : Char → Bool) : List Char → List (List Char)
  | [] => [[]]
  | c :: cs =>
    let r := splitChars p cs
    if p c then [] :: r
    else
      match r with
      | [] => [[c]]
      | t :: ts => (c :: t) :: ts

/-- JavaScript `line.trim().split(/\s+/)`: on the empty trimmed string the
result is `[""]`, otherwise the maximal whitespace-free tokens. -/
def splitWs (line : String) : List String :=
  let t := jsTrim line
  if t = "" then [""]
  else List.filter (fun p => p != "")
    (List.map (fun l => String.mk l) (splitChars Char.isWhitespace t.data))

/-- A successfully parsed bulk-import line (`validHosts` entry of
`parseInput` in `BulkImportForm.js`). -/
structure ParsedHost where
  host : String
  port : Int
  instanceName : String
deriving DecidableEq, Repr

/-- A rejected bulk-import line (`invalid` entry of `parseInput`):
1-based line number, original line content, human-readable reason. -/
structure InvalidLine where
  line : Nat
  content : String
  reason : String
deriving DecidableEq, Repr

/-- One iteration of the `lines.forEach` body of `parseInput`
(`BulkImportForm.js` lines 30-56): three whitespace-separated tokens with a
numeric port yield a host; otherwise an invalid entry with line number
`idx + 1` is produced. -/
def parseLine (idx : Nat) (line : String) : Sum ParsedHost InvalidLine :=
  match splitWs line with
  | [h, p, inst] =>
    match jsParseInt p with
    | some port => Sum.inl ⟨h, port, inst⟩
    | none => Sum.inr ⟨idx + 1, line, "Invalid port"⟩
  | _ => Sum.inr ⟨idx + 1, line, "Invalid format: Expected \"host port instance\""⟩

/-- Result of `parseInput`: the two lists pushed by the loop. -/
structure ParseResult where
  validHosts : List ParsedHost
  invalidLines : List InvalidLine
deriving DecidableEq, Repr

/-- The `lines.forEach` loop of `parseInput`, with `idx` the index of the
first remaining line; each line is appended to exactly one of the two
output lists, in order. -/
def parseLinesAux : Nat → List String → ParseResult
  | _, [] => ⟨[], []⟩
  | idx, line :: rest =>
    let r := parseLinesAux (idx + 1) rest
    match parseLine idx line with
    | Sum.inl h => ⟨h :: r.validHosts, r.invalidLines⟩
    | Sum.inr e => ⟨r.validHosts, e :: r.invalidLines⟩

/-- `parseInput` applied to an already-split list of lines. -/
def parseLines (lines : List String) : ParseResult :=
  parseLinesAux 0 lines

/-- `input.trim().split('\n')` of `parseInput` (line 26). -/
def splitInputLines (input : String) : List String :=
  List.map (fun l => String.mk l) (splitChars (fun c => c = '\n') (jsTrim input).data)

/-- The full `parseInput` of `BulkImportForm.js` (lines 25-60). -/
def parseInput (input : String) : ParseResult :=
  parseLines (splitInputLines input)

/-- The format-rejection message is nonempty. -/
theorem invalidFormatMsg_ne :
    ("Invalid format: Expected \"host port instance\"" : String) ≠ "" := by decide

/-- The port-rejection message is nonempty. -/
theorem invalidPortMsg_ne : ("Invalid port" : String) ≠ "" := by decide

/-- An invalid entry produced by `parseLine idx line` always records line
number `idx + 1`, the original line content, and a nonempty reason. -/
theorem parseLine_inr_fields (idx : Nat) (line : String) (e : InvalidLine)
    (hp : parseLine idx line = Sum.inr e) :
    e.line = idx + 1 ∧ e.content = line ∧ e.reason ≠ "" := by
  unfold parseLine at hp
  rcases hsp : splitWs line with - | ⟨a, - | ⟨b, - | ⟨c, - | ⟨d, t4⟩⟩⟩⟩ <;>
    rw [hsp] at hp
  · rcases hp.symm with ⟨-, -, -⟩; exact ⟨rfl, rfl, invalidFormatMsg_ne⟩
  · rcases hp.symm with ⟨-, -, -⟩; exact ⟨rfl, rfl, invalidFormatMsg_ne⟩
  · rcases hp.symm with ⟨-, -, -⟩; exact ⟨rfl, rfl, invalidFormatMsg_ne⟩
  · simp only at hp
    rcases hj : jsParseInt b with - | v <;> rw [hj] at hp
    · rcases hp.symm with ⟨-, -, -⟩; exact ⟨rfl, rfl, invalidPortMsg_ne⟩
    · exact absurd hp (by simp)
  · rcases hp.symm with ⟨-, -, -⟩; exact ⟨rfl, rfl, invalidFormatMsg_ne⟩

/-- Every invalid entry produced from the tail starting at index `idx`
carries a line number in `(idx, idx + length]`, its original content at that
position, and a nonempty reason. -/
theorem parseLinesAux_invalid_sound (idx : Nat) (lines : List String) :
    ∀ e ∈ (parseLinesAux idx lines).invalidLines,
      idx + 1 ≤ e.line ∧ e.line ≤ idx + lines.length ∧
      lines.getD (e.line - idx - 1) "" = e.content ∧ e.reason ≠ "" := by
  induction lines generalizing idx with
  | nil => intro e he; simp [parseLinesAux] at he
  | cons line rest ih =>
    intro e he
    simp only [parseLinesAux] at he
    cases hp : parseLine idx line with
    | inl h =>
      rw [hp] at he
      simp only at he
      rcases ih (idx + 1) e he with ⟨h1, h2, h3, h4⟩
      refine ⟨by omega, by simp only [List.length_cons]; omega, ?_, h4⟩
      have hpos : e.line - idx - 1 = (e.line - (idx + 1) - 1) + 1 := by omega
      rw [hpos]
      simpa using h3
    | inr e0 =>
      rw [hp] at he
      simp only [List.mem_cons] at he
      cases he with
      | inl heq =>
        subst heq
        rcases parseLine_inr_fields idx line e hp with ⟨hl, hc, hr⟩
        refine ⟨by omega, by simp only [List.length_cons]; omega, ?_, hr⟩
        have : e.line - idx - 1 = 0 := by omega
        rw [this]
        simp [hc]
      | inr hmem =>
        rcases ih (idx + 1) e hmem with ⟨h1, h2, h3, h4⟩
        refine ⟨by omega, by simp only [List.length_cons]; omega, ?_, h4⟩
        have hpos : e.line - idx - 1 = (e.line - (idx + 1) - 1) + 1 := by omega
        rw [hpos]
        simpa using h3

/-- Every input line lands in exactly one of the two output lists, so the two
lengths always add up to the number of lines. -/
theorem parseLinesAux_length (idx : Nat) (lines : List String) :
    (parseLinesAux idx lines).validHosts.length +
      (parseLinesAux idx lines).invalidLines.length = lines.length := by
  induction lines generalizing idx with
  | nil => simp [parseLinesAux]
  | cons line rest ih =>
    simp only [parseLinesAux]
    cases hp : parseLine idx line with
    | inl h => simp only [List.length_cons]; rw [Nat.add_right_comm, ih (idx + 1)]
    | inr e =>
      simp only [List.length_cons]
      have := ih (idx + 1)
      omega

/-- A line is accepted by `parseLine` exactly when it has three
whitespace-separated tokens and the second token parses as a number. -/
theorem parseLine_inl_iff (idx : Nat) (line : String) :
    (∃ h, parseLine idx line = Sum.inl h) ↔
      ((splitWs line).length = 3 ∧ jsParseInt ((splitWs line).getD 1 "") ≠ none) := by
  unfold parseLine
  rcases hsp : splitWs line with - | ⟨a, - | ⟨b, - | ⟨c, - | ⟨d, t4⟩⟩⟩⟩ <;> simp
  cases hj : jsParseInt b <;> simp [hj]

/-- The bulk-import input of the claim. -/
def c1Input : String := "h1 9990 I1\nbad-line\nh1 9990 I1"

end BulkImport

/-- C1: the claim states that parsing the three lines
`"h1 9990 I1" / "bad-line" / "h1 9990 I1"` yields exactly 1 valid host and
2 invalid lines (line numbers 2 and 3) because in-batch duplicates are
rejected.  On the code this is false: `parseInput` performs no duplicate
detection, so it yields 2 valid hosts and a single invalid line. -/
theorem C1_bulk_import_counterexample :
    ¬ ((BulkImport.parseInput BulkImport.c1Input).validHosts.length = 1 ∧
       (BulkImport.parseInput BulkImport.c1Input).invalidLines.length = 2) := by
  decide

/-- C1 (amended): parsing the bulk-import input
`"h1 9990 I1" / "bad-line" / "h1 9990 I1"` yields exactly 2 valid hosts —
the duplicate `h1 9990 I1` entry is accepted twice, not rejected — and
exactly 1 invalid-line entry, with line number 2 and a nonempty
human-readable reason. -/
theorem C1_bulk_import_duplicates_kept :
    (BulkImport.parseInput BulkImport.c1Input).validHosts =
      [⟨"h1", 9990, "I1"⟩, ⟨"h1", 9990, "I1"⟩] ∧
    (BulkImport.parseInput BulkImport.c1Input).invalidLines =
      [⟨2, "bad-line", "Invalid format: Expected \"host port instance\""⟩] ∧
    ("Invalid format: Expected \"host port instance\"" : String) ≠ "" := by
  decide

/-- C3: every bulk-import line is classified into exactly one of the two
outputs (the output sizes always add up to the number of lines); a line is
accepted exactly when it has three whitespace-separated tokens whose port
token parses as a number; every invalid entry carries the 1-based line
number of its line, that line's original content, and a nonempty rejection
reason — invalid lines never abort the batch. -/
theorem C3_bulk_parse_partition :
    (∀ lines : List String,
      (BulkImport.parseLines lines).validHosts.length +
        (BulkImport.parseLines lines).invalidLines.length = lines.length ∧
      ∀ e ∈ (BulkImport.parseLines lines).invalidLines,
        1 ≤ e.line ∧ e.line ≤ lines.length ∧
        lines.getD (e.line - 1) "" = e.content ∧ e.reason ≠ "") ∧
    (∀ idx line, (∃ h, BulkImport.parseLine idx line = Sum.inl h) ↔
      ((BulkImport.splitWs line).length = 3 ∧
        BulkImport.jsParseInt ((BulkImport.splitWs line).getD 1 "") ≠ none)) := by
  constructor
  · intro lines
    constructor
    · exact BulkImport.parseLinesAux_length 0 lines
    · intro e he
      have := BulkImport.parseLinesAux_invalid_sound 0 lines e he
      simpa using this
  · exact BulkImport.parseLine_inl_iff

/-- C3 witness: the concrete batch `["a b", "h 1 i"]` has one invalid and
one valid line; the theorem's guarantees evaluated there. -/
theorem C3_bulk_parse_partition_witness :
    ((BulkImport.parseLines ["a b", "h 1 i"]).validHosts.length +
      (BulkImport.parseLines ["a b", "h 1 i"]).invalidLines.length = 2) ∧
    (1 ≤ (1 : Nat) ∧ (1 : Nat) ≤ 2 ∧
      (["a b", "h 1 i"].getD 0 "" =
        (⟨1, "a b", "Invalid format: Expected \"host port instance\""⟩ :
          BulkImport.InvalidLine).content) ∧
      (⟨1, "a b", "Invalid format: Expected \"host port instance\""⟩ :
          BulkImport.InvalidLine).reason ≠ "") ∧
    ((BulkImport.splitWs "h 1 i").length = 3 ∧
      BulkImport.jsParseInt ((BulkImport.splitWs "h 1 i").getD 1 "") ≠ none) := by
  refine ⟨(C3_bulk_parse_partition.1 ["a b", "h 1 i"]).1, ?_, ?_⟩
  · exact (C3_bulk_parse_partition.1 ["a b", "h 1 i"]).2
      ⟨1, "a b", "Invalid format: Expected \"host port instance\""⟩ (by decide)
  · exact (C3_bulk_parse_partition.2 0 "h 1 i").mp ⟨⟨"h", 1, "i"⟩, by decide⟩

namespace Reports

/-- A report record as the frontend receives it from the reports API:
the fields consumed by `CompareReportsDialog.js` and `ReportsPage.js`. -/
structure Report where
  id : String
  status : String
  rtype : String
  environment : String
deriving DecidableEq, Repr

/-- The report list offered for selection by the compare dialog
(`CompareReportsDialog.js` line 43): only completed, non-comparison
reports survive the filter. -/
def offeredReports (data : List Report) : List Report :=
  List.filter (fun r => r.status == "completed" && r.rtype != "comparison") data

/-- Observable outcome of `handleCompare`: either a synchronous validation
error (no API call) or the `compareReports` API call. -/
inductive CompareAction where
  | validationError (msg : String)
  | apiCompare (report1 report2 : String)
deriving DecidableEq, Repr

/-- The validation prefix of `handleCompare`
(`CompareReportsDialog.js` lines 59-74): an empty selection (the falsy
`''` select value) or two equal ids fail fast before `compareReports`
is called. -/
def handleCompare (report1 report2 : String) : CompareAction :=
  if report1 = "" ∨ report2 = "" then
    CompareAction.validationError "Please select two reports to compare"
  else if report1 = report2 then
    CompareAction.validationError "Please select two different reports"
  else CompareAction.apiCompare report1 report2

/-- Observable outcome of `handleDownloadReport` on `ReportsPage.js`:
a warning snackbar, or the `downloadReport` request. -/
inductive ReportDownloadAction where
  | warn (msg : String)
  | download (id : String)
deriving DecidableEq, Repr

/-- `handleDownloadReport` (`ReportsPage.js` lines 333-341): a report not
in status `completed` produces a warning and returns before any request. -/
def handleDownloadReport (report : Report) : ReportDownloadAction :=
  if report.status ≠ "completed" then
    ReportDownloadAction.warn "Report is not ready for download"
  else ReportDownloadAction.download report.id

/-- A comparison record as consumed by `ComparisonReportsList.js`. -/
structure ComparisonReport where
  id : String
  status : String
deriving DecidableEq, Repr

/-- Observable outcome of `handleDownload` on `ComparisonReportsList.js`:
silently return, or the `downloadComparison` request. -/
inductive ComparisonDownloadAction where
  | noop
  | download (id : String)
deriving DecidableEq, Repr

/-- `handleDownload` (`ComparisonReportsList.js` lines 61-64): a comparison
not in status `completed` returns without acting. -/
def handleDownloadComparison (comparison : ComparisonReport) : ComparisonDownloadAction :=
  if comparison.status ≠ "completed" then ComparisonDownloadAction.noop
  else ComparisonDownloadAction.download comparison.id

/-- Poll interval chosen by the `useEffect` of `ReportsPage.js`
(lines 253-257): 5000 ms when some listed report is generating,
15000 ms otherwise. -/
def pollIntervalMs (reports : List Report) : Nat :=
  if List.any reports (fun r => r.status == "generating") then 5000 else 15000

/-- The three updates `ReportsPage.js` applies to its `reports` state:
a poll result replacing the list (`setReports(reportsData)`), a newly
initiated generation prepended (`setReports(prev => [result, ...prev])`),
and a deletion filtering by id. -/
inductive ReportsEvent where
  | fetch (data : List Report)
  | generate (result : Report)
  | del (id : String)

/-- State transition of the `reports` state for each event. -/
def applyReportsEvent (reports : List Report) : ReportsEvent → List Report
  | ReportsEvent.fetch data => data
  | ReportsEvent.generate result => result :: reports
  | ReportsEvent.del id => List.filter (fun r => r.id != id) reports

end Reports

/-- C2: a comparison is initiated only for two distinct selected reports:
whenever either selection is empty or the two ids coincide,
`handleCompare` produces a validation error and never the compare API
call; and every report offered for selection by the dialog has status
`completed`. -/
theorem C2_compare_validation :
    (∀ r1 r2 : String, (r1 = "" ∨ r2 = "" ∨ r1 = r2) →
      (∃ msg, Reports.handleCompare r1 r2 = Reports.CompareAction.validationError msg) ∧
      ∀ a b, Reports.handleCompare r1 r2 ≠ Reports.CompareAction.apiCompare a b) ∧
    (∀ data : List Reports.Report, ∀ r ∈ Reports.offeredReports data,
      r.status = "completed") := by
  constructor
  · intro r1 r2 hcase
    by_cases hempty : r1 = "" ∨ r2 = ""
    · unfold Reports.handleCompare
      rw [if_pos hempty]
      exact ⟨⟨_, rfl⟩, by intro a b h; exact absurd h (by simp)⟩
    · have heq : r1 = r2 := by tauto
      unfold Reports.handleCompare
      rw [if_neg hempty, if_pos heq]
      exact ⟨⟨_, rfl⟩, by intro a b h; exact absurd h (by simp)⟩
  · intro data r hr
    have := List.of_mem_filter hr
    simp only [Bool.and_eq_true, beq_iff_eq, bne_iff_ne] at this
    exact this.1

/-- C2 witness: selecting the same report id twice is rejected, and a
concrete completed report survives the dialog's filter with status
`completed`. -/
theorem C2_compare_validation_witness :
    ((∃ msg, Reports.handleCompare "a" "a" = Reports.CompareAction.validationError msg) ∧
      ∀ x y, Reports.handleCompare "a" "a" ≠ Reports.CompareAction.apiCompare x y) ∧
    (⟨"x", "completed", "status", "production"⟩ : Reports.Report).status = "completed" := by
  refine ⟨C2_compare_validation.1 "a" "a" (Or.inr (Or.inr rfl)), ?_⟩
  exact C2_compare_validation.2 [⟨"x", "completed", "status", "production"⟩]
    ⟨"x", "completed", "status", "production"⟩ (by decide)

/-- C7: downloads are refused for any report or comparison whose status is
not `completed`: for reports a warning is produced and no download request
issued; for comparisons the handler returns without acting. -/
theorem C7_download_requires_completed :
    (∀ report : Reports.Report, report.status ≠ "completed" →
      Reports.handleDownloadReport report =
        Reports.ReportDownloadAction.warn "Report is not ready for download" ∧
      ∀ i, Reports.handleDownloadReport report ≠ Reports.ReportDownloadAction.download i) ∧
    (∀ comparison : Reports.ComparisonReport, comparison.status ≠ "completed" →
      Reports.handleDownloadComparison comparison = Reports.ComparisonDownloadAction.noop ∧
      ∀ i, Reports.handleDownloadComparison comparison ≠
        Reports.ComparisonDownloadAction.download i) := by
  constructor
  · intro report h
    unfold Reports.handleDownloadReport
    rw [if_pos h]
    exact ⟨rfl, by intro i hi; exact absurd hi (by simp)⟩
  · intro comparison h
    unfold Reports.handleDownloadComparison
    rw [if_pos h]
    exact ⟨rfl, by intro i hi; exact absurd hi (by simp)⟩

/-- C7 witness: a generating report and a generating comparison are both
refused a download. -/
theorem C7_download_requires_completed_witness :
    (Reports.handleDownloadReport ⟨"r1", "generating", "status", "production"⟩ =
      Reports.ReportDownloadAction.warn "Report is not ready for download" ∧
      ∀ i, Reports.handleDownloadReport ⟨"r1", "generating", "status", "production"⟩ ≠
        Reports.ReportDownloadAction.download i) ∧
    (Reports.handleDownloadComparison ⟨"c1", "generating"⟩ =
      Reports.ComparisonDownloadAction.noop ∧
      ∀ i, Reports.handleDownloadComparison ⟨"c1", "generating"⟩ ≠
        Reports.ComparisonDownloadAction.download i) :=
  ⟨C7_download_requires_completed.1 ⟨"r1", "generating", "status", "production"⟩ (by decide),
   C7_download_requires_completed.2 ⟨"c1", "generating"⟩ (by decide)⟩

/-- C8: the reports page learns of status changes only through its polling
timer: the poll interval is 5000 ms when at least one listed report is
`generating` and 15000 ms otherwise, and the only state update that can
change an already-listed report's record is a fetch result — initiating a
generation and deleting a report leave every other listed record intact. -/
theorem C8_polling_only :
    (∀ reports : List Reports.Report,
      ((∃ r ∈ reports, r.status = "generating") →
        Reports.pollIntervalMs reports = 5000) ∧
      ((∀ r ∈ reports, r.status ≠ "generating") →
        Reports.pollIntervalMs reports = 15000)) ∧
    (∀ (reports : List Reports.Report) (r res : Reports.Report), r ∈ reports →
      r ∈ Reports.applyReportsEvent reports (Reports.ReportsEvent.generate res)) ∧
    (∀ (reports : List Reports.Report) (r : Reports.Report) (i : String),
      r ∈ reports → r.id ≠ i →
      r ∈ Reports.applyReportsEvent reports (Reports.ReportsEvent.del i)) := by
  refine ⟨?_, ?_, ?_⟩
  · intro reports
    constructor
    · intro ⟨r, hr, hst⟩
      unfold Reports.pollIntervalMs
      rw [if_pos]
      rw [List.any_eq_true]
      exact ⟨r, hr, by simp [hst]⟩
    · intro hall
      unfold Reports.pollIntervalMs
      rw [if_neg]
      rw [List.any_eq_true]
      rintro ⟨r, hr, hst⟩
      exact hall r hr (by simpa using hst)
  · intro reports r res hr
    simp [Reports.applyReportsEvent, hr]
  · intro reports r i hr hne
    simp only [Reports.applyReportsEvent]
    rw [List.mem_filter]
    exact ⟨hr, by simpa using hne⟩

/-- C8 witness: with one generating report the interval is 5000 ms; with
only completed reports it is 15000 ms; generating and deleting leave an
existing listed report in place. -/
theorem C8_polling_only_witness :
    Reports.pollIntervalMs [⟨"r1", "generating", "status", "production"⟩] = 5000 ∧
    Reports.pollIntervalMs [⟨"r1", "completed", "status", "production"⟩] = 15000 ∧
    (⟨"r1", "completed", "status", "production"⟩ : Reports.Report) ∈
      Reports.applyReportsEvent [⟨"r1", "completed", "status", "production"⟩]
        (Reports.ReportsEvent.generate ⟨"r2", "generating", "status", "production"⟩) ∧
    (⟨"r1", "completed", "status", "production"⟩ : Reports.Report) ∈
      Reports.applyReportsEvent [⟨"r1", "completed", "status", "production"⟩]
        (Reports.ReportsEvent.del "r9") := by
  refine ⟨?_, ?_, ?_, ?_⟩
  · exact (C8_polling_only.1 [⟨"r1", "generating", "status", "production"⟩]).1
      ⟨⟨"r1", "generating", "status", "production"⟩, by decide, rfl⟩
  · exact (C8_polling_only.1 [⟨"r1", "completed", "status", "production"⟩]).2
      (by intro r hr; simp at hr; subst hr; decide)
  · exact C8_polling_only.2.1 [⟨"r1", "completed", "status", "production"⟩]
      ⟨"r1", "completed", "status", "production"⟩
      ⟨"r2", "generating", "status", "production"⟩ (by decide)
  · exact C8_polling_only.2.2 [⟨"r1", "completed", "status", "production"⟩]
      ⟨"r1", "completed", "status", "production"⟩ "r9" (by decide) (by decide)

namespace Stats

/-- A datasource entry of a host's status
(`status.datasources` in `MonitorPage.js`). -/
structure Datasource where
  name : String
  dsKind : String
  status : String
deriving DecidableEq, Repr

/-- A deployment entry of a host's status. -/
structure Deployment where
  name : String
  status : String
deriving DecidableEq, Repr

/-- The `status` object attached to a host by a check. -/
structure HostStatus where
  instance_status : String
  datasources : List Datasource
  deployments : List Deployment
deriving DecidableEq, Repr

/-- A monitored host as the dashboard pages receive it; `status` is absent
(`none`) when the host was never checked. -/
structure MHost where
  id : String
  host : String
  port : Int
  instanceName : String
  status : Option HostStatus
deriving DecidableEq, Repr

/-- JavaScript `h.status?.instance_status`: `none` models `undefined`. -/
def instStatus (h : MHost) : Option String :=
  Option.map (fun s => s.instance_status) h.status

/-- The host block of the statistics computed by `getStats`
(`MonitorPage.js` lines 466-472) and by `computeStats`
(`DashboardPage.js` lines 34-52). -/
structure HostStats where
  total : Nat
  up : Nat
  down : Nat
  unknown : Int
  upPercentage : ℚ
deriving DecidableEq, Repr

/-- The datasource/deployment block of `getStats`. -/
structure ResourceStats where
  total : Nat
  up : Nat
  upPercentage : ℚ
deriving DecidableEq, Repr

/-- The full return value of `getStats`. -/
structure MonitorStats where
  hosts : HostStats
  datasources : ResourceStats
  deployments : ResourceStats
deriving DecidableEq, Repr

/-- `h.status?.datasources || []`. -/
def hostDatasources (h : MHost) : List Datasource :=
  (Option.map (fun s => s.datasources) h.status).getD []

/-- `h.status?.deployments || []`. -/
def hostDeployments (h : MHost) : List Deployment :=
  (Option.map (fun s => s.deployments) h.status).getD []

/-- `getStats` of `MonitorPage.js` (lines 466-503): up/down by strict
string equality on `instance_status`, `unknown = total - up - down`,
percentages guarded against an empty denominator. -/
def getStats (hosts : List MHost) : MonitorStats :=
  let total := hosts.length
  let up := (List.filter (fun h => instStatus h == some "up") hosts).length
  let down := (List.filter (fun h => instStatus h == some "down") hosts).length
  let unknown : Int := (total : Int) - up - down
  let upPercentage : ℚ := if total > 0 then ((up : ℚ) / (total : ℚ)) * 100 else 0
  let totalDatasources := (List.map (fun h => (hostDatasources h).length) hosts).sum
  let upDatasources :=
    (List.map (fun h =>
      (List.filter (fun ds => ds.status == "up") (hostDatasources h)).length) hosts).sum
  let totalDeployments := (List.map (fun h => (hostDeployments h).length) hosts).sum
  let upDeployments :=
    (List.map (fun h =>
      (List.filter (fun d => d.status == "up") (hostDeployments h)).length) hosts).sum
  { hosts := ⟨total, up, down, unknown, upPercentage⟩
    datasources :=
      ⟨totalDatasources, upDatasources,
        if totalDatasources > 0 then
          ((upDatasources : ℚ) / (totalDatasources : ℚ)) * 100
        else 0⟩
    deployments :=
      ⟨totalDeployments, upDeployments,
        if totalDeployments > 0 then
          ((upDeployments : ℚ) / (totalDeployments : ℚ)) * 100
        else 0⟩ }

/-- `computeStats` of `DashboardPage.js` (lines 34-52): all-zero statistics
for an empty host list, otherwise the same counts as `getStats` with an
unguarded percentage (the denominator is nonzero there). -/
def computeStats (hosts : List MHost) : HostStats :=
  if hosts.length = 0 then ⟨0, 0, 0, 0, 0⟩
  else
    let total := hosts.length
    let up := (List.filter (fun h => instStatus h == some "up") hosts).length
    let down := (List.filter (fun h => instStatus h == some "down") hosts).length
    ⟨total, up, down, (total : Int) - up - down, ((up : ℚ) / (total : ℚ)) * 100⟩

/-- Splitting a list by two mutually exclusive boolean predicates: the
matches of each plus the rest account for every element. -/
theorem filter_three_way {α : Type} (p q : α → Bool)
    (hpq : ∀ x, ¬(p x = true ∧ q x = true)) (l : List α) :
    (List.filter p l).length + (List.filter q l).length +
      (List.filter (fun x => !p x && !q x) l).length = l.length := by
  induction l with
  | nil => simp
  | cons a t ih =>
    rcases hp : p a with - | -
    · rcases hq : q a with - | -
      · simp only [List.filter_cons, hp, hq, List.length_cons]
        simp only [Bool.not_false, Bool.and_self, cond_true, cond_false]
        simp only [if_neg, Bool.false_eq_true, not_false_iff, if_pos]
        simp [hp, hq]
        omega
      · simp only [List.filter_cons, hp, hq, List.length_cons]
        simp [hp, hq]
        omega
    · have hq : q a = false := by
        rcases hqv : q a with - | -
        · rfl
        · exact absurd ⟨hp, hqv⟩ (hpq a)
      simp only [List.filter_cons, hp, hq, List.length_cons]
      simp [hp, hq]
      omega

/-- Hosts counted as neither up nor down by the dashboards. -/
def unknownCount (hosts : List MHost) : Nat :=
  (List.filter
    (fun h => !(instStatus h == some "up") && !(instStatus h == some "down")) hosts).length

/-- The up/down filters of the dashboards never both accept a host. -/
theorem up_down_exclusive (h : MHost) :
    ¬((instStatus h == some "up") = true ∧ (instStatus h == some "down") = true) := by
  rintro ⟨h1, h2⟩
  rw [beq_iff_eq] at h1 h2
  rw [h1] at h2
  exact absurd (Option.some.inj h2) (by decide)

end Stats

/-- C9: for every host list the dashboard statistics satisfy
`up + down + unknown = total`; `up` and `down` count hosts whose
`instance_status` is exactly `"up"` respectively `"down"`, every other
host — `pending`, absent status, or unrecognized values — is counted as
unknown; and the up-percentage of the empty list is 0 in both
`MonitorPage.getStats` and `DashboardPage.computeStats`. -/
theorem C9_dashboard_stats :
    (∀ hosts : List Stats.MHost,
      ((Stats.getStats hosts).hosts.up : Int) + ((Stats.getStats hosts).hosts.down : Int) +
          (Stats.getStats hosts).hosts.unknown = ((Stats.getStats hosts).hosts.total : Int) ∧
      (Stats.getStats hosts).hosts.up =
        (List.filter (fun h => Stats.instStatus h == some "up") hosts).length ∧
      (Stats.getStats hosts).hosts.down =
        (List.filter (fun h => Stats.instStatus h == some "down") hosts).length ∧
      (Stats.getStats hosts).hosts.unknown = (Stats.unknownCount hosts : Int) ∧
      ((Stats.computeStats hosts).up : Int) + ((Stats.computeStats hosts).down : Int) +
          (Stats.computeStats hosts).unknown = ((Stats.computeStats hosts).total : Int) ∧
      (Stats.computeStats hosts).unknown = (Stats.unknownCount hosts : Int)) ∧
    (Stats.getStats []).hosts.upPercentage = 0 ∧
    (Stats.computeStats []).upPercentage = 0 := by
  refine ⟨?_, by norm_num [Stats.getStats], by norm_num [Stats.computeStats]⟩
  intro hosts
  have key := Stats.filter_three_way
    (fun h => Stats.instStatus h == some "up")
    (fun h => Stats.instStatus h == some "down")
    Stats.up_down_exclusive hosts
  rcases hempty : hosts.length with - | n
  · have h0 : hosts = [] := List.length_eq_zero.mp hempty
    subst h0
    refine ⟨by decide, by decide, by decide, by decide, by decide, by decide⟩
  · have hne : hosts.length ≠ 0 := by omega
    refine ⟨?_, rfl, rfl, ?_, ?_, ?_⟩
    · simp only [Stats.getStats]
      ring
    · simp only [Stats.getStats, Stats.unknownCount]
      have : (List.filter (fun h => Stats.instStatus h == some "up") hosts).length +
          (List.filter (fun h => Stats.instStatus h == some "down") hosts).length +
          Stats.unknownCount hosts = hosts.length := key
      simp only [Stats.unknownCount] at this
      omega
    · simp only [Stats.computeStats, if_neg hne]
      ring
    · simp only [Stats.computeStats, if_neg hne, Stats.unknownCount]
      have : (List.filter (fun h => Stats.instStatus h == some "up") hosts).length +
          (List.filter (fun h => Stats.instStatus h == some "down") hosts).length +
          Stats.unknownCount hosts = hosts.length := key
      simp only [Stats.unknownCount] at this
      omega

namespace Config

/-- Key-value entries of the backend configuration file
(`src/unnamed/part_000`), in file order. -/
def envFile : List (String × String) :=
  [("FLASK_APP", "app.py"),
   ("FLASK_ENV", "development"),
   ("FLASK_DEBUG", "1"),
   ("SECRET_KEY", "your_very_secret_development_key"),
   ("JWT_SECRET_KEY", "your_very_secret_jwt_key"),
   ("PROD_JBOSS_USERNAME", "your_production_username"),
   ("PROD_JBOSS_PASSWORD", "your_production_password"),
   ("NONPROD_JBOSS_USERNAME", "your_production_username"),
   ("NONPROD_JBOSS_PASSWORD", "your_production_username"),
   ("MONITORING_INTERVAL", "60"),
   ("CLI_TIMEOUT", "30"),
   ("MAX_WORKERS", "10")]

/-- Value configured for a key, if any. -/
def envLookup (key : String) : Option String :=
  Option.map (fun kv => kv.2) (List.find? (fun kv => kv.1 == key) envFile)

/-- Configured value read as a decimal number (leading digits). -/
def envNat (key : String) : Option Nat :=
  Option.map (fun v => BulkImport.digitsToNat (List.takeWhile Char.isDigit v.data))
    (envLookup key)

end Config

/-- C6: the configured defaults match the spec's stated defaults: the
per-command CLI timeout is 30 (seconds), the worker-pool size is 10, and
the per-environment monitoring interval is 60 (seconds), as set by
`CLI_TIMEOUT`, `MAX_WORKERS` and `MONITORING_INTERVAL` in the backend
configuration file. -/
theorem C6_config_defaults :
    Config.envLookup "CLI_TIMEOUT" = some "30" ∧
    Config.envLookup "MAX_WORKERS" = some "10" ∧
    Config.envLookup "MONITORING_INTERVAL" = some "60" ∧
    Config.envNat "CLI_TIMEOUT" = some 30 ∧
    Config.envNat "MAX_WORKERS" = some 10 ∧
    Config.envNat "MONITORING_INTERVAL" = some 60 := by
  decide

/-- C10: a bulk-import line whose port token is digits followed by
non-digits, `"h1 9990abc I1"`, is classified as valid with port `9990`:
`parseInt` keeps the numeric prefix and only a `NaN` result is rejected. -/
theorem C10_port_numeric_prefix_accepted :
    BulkImport.parseInput "h1 9990abc I1" =
      ⟨[⟨"h1", 9990, "I1"⟩], []⟩ ∧
    BulkImport.jsParseInt "9990abc" = some 9990 := by
  decide

namespace Jobs

/-- Modelled from the spec: the status values of a ReportJob/ComparisonJob.
The backend report engine is not part of the source tree; these are the
three values its lifecycle uses and the only ones `getStatusColor` on
`ReportsPage.js` maps to non-default colors. -/
inductive JobStatus where
  | generating
  | completed
  | failed
deriving DecidableEq, Repr

/-- Modelled from the spec: the only transitions of the report lifecycle,
`generating → completed` and `generating → failed`; the terminal states
have no outgoing transitions. -/
inductive JobStep : JobStatus → JobStatus → Prop where
  | complete : JobStep JobStatus.generating JobStatus.completed
  | fail : JobStep JobStatus.generating JobStatus.failed

/-- Two consecutive observations of a job: unchanged, or one transition. -/
def JobStepEq (a b : JobStatus) : Prop :=
  a = b ∨ JobStep a b

/-- A sequence of statuses a polling client can observe over time. -/
def JobTrace (t : List JobStatus) : Prop :=
  List.Chain' JobStepEq t

/-- An observation step from `completed` stays at `completed`. -/
theorem jobStepEq_completed {b : JobStatus}
    (h : JobStepEq JobStatus.completed b) : b = JobStatus.completed := by
  rcases h with h | h
  · exact h.symm
  · cases h

/-- An observation step from `failed` stays at `failed`. -/
theorem jobStepEq_failed {b : JobStatus}
    (h : JobStepEq JobStatus.failed b) : b = JobStatus.failed := by
  rcases h with h | h
  · exact h.symm
  · cases h

/-- Along any chain of observation steps, terminal states are absorbing. -/
theorem reach_absorb (a b : JobStatus)
    (h : Relation.ReflTransGen JobStepEq a b) :
    (a = JobStatus.completed → b = JobStatus.completed) ∧
    (a = JobStatus.failed → b = JobStatus.failed) := by
  induction h with
  | refl => exact ⟨fun h => h, fun h => h⟩
  | tail hab hbc ih =>
    constructor
    · intro ha
      have hb := ih.1 ha
      rw [hb] at hbc
      exact jobStepEq_completed hbc
    · intro ha
      have hb := ih.2 ha
      rw [hb] at hbc
      exact jobStepEq_failed hbc

/-- Any two positions of a trace, in order, are related by a chain of
observation steps. -/
theorem trace_reach (t : List JobStatus) (ht : JobTrace t)
    (i j : Nat) (hij : i ≤ j) (hj : j < t.length) :
    Relation.ReflTransGen JobStepEq
      (t.getD i JobStatus.generating) (t.getD j JobStatus.generating) := by
  induction j with
  | zero =>
    have h0 : i = 0 := Nat.le_zero.mp hij
    subst h0
    exact Relation.ReflTransGen.refl
  | succ k ih =>
    rcases Nat.lt_or_ge i (k + 1) with hlt | hge
    · have hik : i ≤ k := by omega
      have hk : k < t.length := by omega
      have hstep : JobStepEq (t.getD k JobStatus.generating)
          (t.getD (k + 1) JobStatus.generating) := by
        have hchain := List.chain'_iff_get.mp ht k (by omega)
        rw [List.getD_eq_getElem t JobStatus.generating hk,
          List.getD_eq_getElem t JobStatus.generating hj]
        simpa using hchain
      exact Relation.ReflTransGen.tail (ih hik hk) hstep
    · have heq : i = k + 1 := by omega
      subst heq
      exact Relation.ReflTransGen.refl

end Jobs

/-- C4: a job's status is always exactly one of `generating`, `completed`,
`failed`, and along every observable trace (consecutive polls see either an
unchanged status or one lifecycle transition) the status never moves
backward: once `completed` it stays `completed`, once `failed` it stays
`failed`, and a later `generating` observation forces every earlier
observation to be `generating` — so at most one transition ever happens
and `completed` and `failed` never follow one another. -/
theorem C4_job_status_monotonic :
    (∀ s : Jobs.JobStatus, s = Jobs.JobStatus.generating ∨
      s = Jobs.JobStatus.completed ∨ s = Jobs.JobStatus.failed) ∧
    (∀ t : List Jobs.JobStatus, Jobs.JobTrace t →
      ∀ i j : Nat, i ≤ j → j < t.length →
        ((t.getD i Jobs.JobStatus.generating = Jobs.JobStatus.completed →
          t.getD j Jobs.JobStatus.generating = Jobs.JobStatus.completed) ∧
         (t.getD i Jobs.JobStatus.generating = Jobs.JobStatus.failed →
          t.getD j Jobs.JobStatus.generating = Jobs.JobStatus.failed) ∧
         (t.getD j Jobs.JobStatus.generating = Jobs.JobStatus.generating →
          t.getD i Jobs.JobStatus.generating = Jobs.JobStatus.generating))) := by
  constructor
  · intro s
    cases s
    · exact Or.inl rfl
    · exact Or.inr (Or.inl rfl)
    · exact Or.inr (Or.inr rfl)
  · intro t ht i j hij hj
    have hreach := Jobs.trace_reach t ht i j hij hj
    have habs := Jobs.reach_absorb _ _ hreach
    refine ⟨habs.1, habs.2, ?_⟩
    intro hgen
    by_contra hne
    cases hcase : t.getD i Jobs.JobStatus.generating with
    | generating => exact hne hcase
    | completed => rw [habs.1 hcase] at hgen; exact absurd hgen (by decide)
    | failed => rw [habs.2 hcase] at hgen; exact absurd hgen (by decide)

/-- C4 witness: on the concrete trace `generating, completed, completed`
the guarantees hold between positions 1 and 2. -/
theorem C4_job_status_monotonic_witness :
    (Jobs.JobStatus.completed = Jobs.JobStatus.generating ∨
      Jobs.JobStatus.completed = Jobs.JobStatus.completed ∨
      Jobs.JobStatus.completed = Jobs.JobStatus.failed) ∧
    (([Jobs.JobStatus.generating, Jobs.JobStatus.completed,
        Jobs.JobStatus.completed].getD 1 Jobs.JobStatus.generating =
          Jobs.JobStatus.completed →
      [Jobs.JobStatus.generating, Jobs.JobStatus.completed,
        Jobs.JobStatus.completed].getD 2 Jobs.JobStatus.generating =
          Jobs.JobStatus.completed) ∧
     ([Jobs.JobStatus.generating, Jobs.JobStatus.completed,
        Jobs.JobStatus.completed].getD 1 Jobs.JobStatus.generating =
          Jobs.JobStatus.failed →
      [Jobs.JobStatus.generating, Jobs.JobStatus.completed,
        Jobs.JobStatus.completed].getD 2 Jobs.JobStatus.generating =
          Jobs.JobStatus.failed) ∧
     ([Jobs.JobStatus.generating, Jobs.JobStatus.completed,
        Jobs.JobStatus.completed].getD 2 Jobs.JobStatus.generating =
          Jobs.JobStatus.generating →
      [Jobs.JobStatus.generating, Jobs.JobStatus.completed,
        Jobs.JobStatus.completed].getD 1 Jobs.JobStatus.generating =
          Jobs.JobStatus.generating)) := by
  have htrace : Jobs.JobTrace
      [Jobs.JobStatus.generating, Jobs.JobStatus.completed,
        Jobs.JobStatus.completed] := by
    refine List.chain'_cons.mpr ⟨Or.inr Jobs.JobStep.complete, ?_⟩
    refine List.chain'_cons.mpr ⟨Or.inl rfl, ?_⟩
    exact List.chain'_singleton _
  exact ⟨C4_job_status_monotonic.1 Jobs.JobStatus.completed,
    C4_job_status_monotonic.2
      [Jobs.JobStatus.generating, Jobs.JobStatus.completed,
        Jobs.JobStatus.completed] htrace 1 2 (by omega) (by decide)⟩

namespace Pool

/-- Modelled from the spec: the lifecycle of one host check submitted to
the shared worker pool.  The backend check aggregator is not part of the
source tree; `MAX_WORKERS` in `src/unnamed/part_000` caps the pool.
`done ok` records that a result was produced, whether the check succeeded
or failed. -/
inductive TaskState where
  | pending
  | running
  | done (ok : Bool)
deriving DecidableEq, Repr

/-- Modelled from the spec: a host check tagged with the `CheckAll` or
`CheckOne` invocation that submitted it; all invocations share one pool. -/
structure Task where
  invocation : Nat
  state : TaskState
deriving DecidableEq, Repr

/-- Number of checks currently in flight, across all invocations. -/
def runningCount (s : List Task) : Nat :=
  (List.filter (fun t => t.state == TaskState.running) s).length

/-- Whether a task has produced a result. -/
def isDone : TaskState → Bool
  | TaskState.done _ => true
  | _ => false

/-- Number of checks that have produced a result. -/
def doneCount (s : List Task) : Nat :=
  (List.filter (fun t => isDone t.state) s).length

/-- Number of tasks belonging to invocation `k`. -/
def invCount (k : Nat) (s : List Task) : Nat :=
  (List.filter (fun t => t.invocation == k) s).length

/-- Modelled from the spec: one scheduling step of the shared pool of
capacity `K`.  A pending task may start only while fewer than `K` checks
are in flight system-wide; a running task may finish with either outcome
(failures are isolated, the task still yields a result). -/
inductive PoolStep (K : Nat) : List Task → List Task → Prop where
  | start (pre post : List Task) (inv : Nat) :
      runningCount (pre ++ ⟨inv, TaskState.pending⟩ :: post) < K →
      PoolStep K (pre ++ ⟨inv, TaskState.pending⟩ :: post)
                 (pre ++ ⟨inv, TaskState.running⟩ :: post)
  | finish (pre post : List Task) (inv : Nat) (ok : Bool) :
      PoolStep K (pre ++ ⟨inv, TaskState.running⟩ :: post)
                 (pre ++ ⟨inv, TaskState.done ok⟩ :: post)

/-- Executions of the shared pool: any number of scheduling steps. -/
def PoolReach (K : Nat) : List Task → List Task → Prop :=
  Relation.ReflTransGen (PoolStep K)

/-- In-flight count of a one-task replacement context. -/
theorem runningCount_mid (pre post : List Task) (t : Task) :
    runningCount (pre ++ t :: post) =
      runningCount pre + runningCount [t] + runningCount post := by
  simp only [runningCount, List.filter_append, List.filter_cons, List.filter_nil,
    List.length_append]
  cases h : (t.state == TaskState.running) <;> simp [h] <;> omega

/-- A pending task is not in flight. -/
theorem runningCount_single_pending (inv : Nat) :
    runningCount [⟨inv, TaskState.pending⟩] = 0 := rfl

/-- A running task is in flight. -/
theorem runningCount_single_running (inv : Nat) :
    runningCount [⟨inv, TaskState.running⟩] = 1 := rfl

/-- A finished task is not in flight. -/
theorem runningCount_single_done (inv : Nat) (ok : Bool) :
    runningCount [⟨inv, TaskState.done ok⟩] = 0 := rfl

/-- Replacing the state of the task in the middle of a context does not
change any invocation's task count. -/
theorem invCount_mid_state (k : Nat) (pre post : List Task) (inv : Nat)
    (st1 st2 : TaskState) :
    invCount k (pre ++ ⟨inv, st1⟩ :: post) =
      invCount k (pre ++ ⟨inv, st2⟩ :: post) := by
  simp only [invCount, List.filter_append, List.filter_cons, List.length_append]
  cases h : (inv == k) <;> simp [h]

/-- A pool with no running task anywhere has in-flight count zero. -/
theorem runningCount_of_all_pending (s : List Task)
    (h : ∀ t ∈ s, t.state = TaskState.pending) : runningCount s = 0 := by
  simp only [runningCount, List.length_eq_zero]
  rw [List.filter_eq_nil_iff]
  intro t ht
  rw [h t ht]
  decide

/-- A pool in which every task is done has as many results as tasks. -/
theorem doneCount_of_all_done (s : List Task)
    (h : ∀ t ∈ s, isDone t.state = true) : doneCount s = s.length := by
  exact List.filter_length_eq_length.mpr h

/-- A single scheduling step never exceeds the cap, and preserves the task
count of the pool and of every invocation. -/
theorem poolStep_invariants (K : Nat) (a b : List Task)
    (hstep : PoolStep K a b) (hK : runningCount a ≤ K) :
    runningCount b ≤ K ∧ b.length = a.length ∧
      ∀ k, invCount k b = invCount k a := by
  cases hstep with
  | start pre post inv hlt =>
    refine ⟨?_, by simp, fun k => invCount_mid_state k pre post inv _ _⟩
    rw [runningCount_mid] at hlt ⊢
    rw [runningCount_single_pending] at hlt
    rw [runningCount_single_running]
    omega
  | finish pre post inv ok =>
    refine ⟨?_, by simp, fun k => invCount_mid_state k pre post inv _ _⟩
    rw [runningCount_mid] at hK ⊢
    rw [runningCount_single_running] at hK
    rw [runningCount_single_done]
    omega

end Pool

/-- C5: starting from checks that are all pending, every execution of the
shared worker pool of capacity `K` keeps at most `K` checks in flight at
every reachable state — the cap is shared across all invocations, since
`runningCount` counts running tasks of every invocation tag — and the pool
neither loses nor duplicates work: the task count of each invocation is
preserved, and any state in which every task is done holds exactly one
result per submitted check (an invocation over `N` hosts gets `N`
results regardless of per-check failures). -/
theorem C5_worker_pool_bounded :
    ∀ (K : Nat) (init s : List Pool.Task),
      (∀ t ∈ init, t.state = Pool.TaskState.pending) →
      Pool.PoolReach K init s →
      Pool.runningCount s ≤ K ∧
      s.length = init.length ∧
      (∀ k, Pool.invCount k s = Pool.invCount k init) ∧
      ((∀ t ∈ s, Pool.isDone t.state = true) → Pool.doneCount s = init.length) := by
  intro K init s hpending hreach
  have hmain : Pool.runningCount s ≤ K ∧ s.length = init.length ∧
      ∀ k, Pool.invCount k s = Pool.invCount k init := by
    induction hreach with
    | refl =>
      refine ⟨?_, rfl, fun k => rfl⟩
      rw [Pool.runningCount_of_all_pending init hpending]
      exact Nat.zero_le K
    | tail hab hbc ih =>
      rcases ih with ⟨ihK, ihlen, ihinv⟩
      rcases Pool.poolStep_invariants K _ _ hbc ihK with ⟨hK2, hlen2, hinv2⟩
      exact ⟨hK2, by rw [hlen2, ihlen], fun k => by rw [hinv2 k, ihinv k]⟩
  refine ⟨hmain.1, hmain.2.1, hmain.2.2, ?_⟩
  intro hdone
  rw [Pool.doneCount_of_all_done s hdone]
  exact hmain.2.1

/-- C5 witness: with capacity 1 and two pending checks from different
invocations, after starting the first check the bound, the task counts and
the completed-state result count are as guaranteed. -/
theorem C5_worker_pool_bounded_witness :
    Pool.runningCount
      [⟨0, Pool.TaskState.running⟩, ⟨1, Pool.TaskState.pending⟩] ≤ 1 ∧
    ([⟨0, Pool.TaskState.running⟩, ⟨1, Pool.TaskState.pending⟩] :
      List Pool.Task).length =
      ([⟨0, Pool.TaskState.pending⟩, ⟨1, Pool.TaskState.pending⟩] :
        List Pool.Task).length ∧
    (∀ k, Pool.invCount k
        [⟨0, Pool.TaskState.running⟩, ⟨1, Pool.TaskState.pending⟩] =
      Pool.invCount k
        [⟨0, Pool.TaskState.pending⟩, ⟨1, Pool.TaskState.pending⟩]) ∧
    ((∀ t ∈ ([⟨0, Pool.TaskState.running⟩, ⟨1, Pool.TaskState.pending⟩] :
        List Pool.Task), Pool.isDone t.state = true) →
      Pool.doneCount
        [⟨0, Pool.TaskState.running⟩, ⟨1, Pool.TaskState.pending⟩] = 2) := by
  have hstart : Pool.PoolStep 1
      [⟨0, Pool.TaskState.pending⟩, ⟨1, Pool.TaskState.pending⟩]
      [⟨0, Pool.TaskState.running⟩, ⟨1, Pool.TaskState.pending⟩] := by
    have h := Pool.PoolStep.start (K := 1) []
      [⟨1, Pool.TaskState.pending⟩] 0 (by decide)
    simpa using h
  exact C5_worker_pool_bounded 1
    [⟨0, Pool.TaskState.pending⟩, ⟨1, Pool.TaskState.pending⟩]
    [⟨0, Pool.TaskState.running⟩, ⟨1, Pool.TaskState.pending⟩]
    (by decide)
    (Relation.ReflTransGen.tail Relation.ReflTransGen.refl hstart)
